import Mathlib

/-!
# SleighAsm.h: operand model and p-code sequence builder

A shallow embedding of `src/SleighAsm.h`: the tagged operand `PcodeOperand`
(constructors, copy constructor, `operator==`, kind predicates), the
micro-operation `Pcodeop` and its `fini`, the emission callback
`PcodeSlg::dump`, the destructor of `PcodeSlg`, `UniquePcodeOperand`, and
`AsmLoadImage::adjustVma`.

Conventions.
* `uintb` (64-bit) and `uint4` (32-bit) values are natural numbers; the embedded
  code only stores and compares them, so no arithmetic can wrap.
* `int4 isize` is an `Int`.
* A `PcodeOperand *` is an `Option Ptr`: `none` is `nullptr`, `some p` is the
  address of an operand on the free store.
* `VarnodeData *vars` is a list holding the entries the caller made available;
  reading an index the list does not have is undefined behaviour.
* A constructor call ends in a `Construction`: the object, a thrown
  `LowlevelError`, or undefined behaviour (an operation on a union member whose
  lifetime has not begun).
-/

namespace SleighAsm

/-! ## Operand model -/

/-- The exception type thrown by the source, carrying its explanation text. -/
structure LowlevelError where
  explain : String
deriving DecidableEq, Repr

/-- The anonymous enumeration of `PcodeOperand::type` (lines 77-83). -/
inductive OperandType where
  | REGISTER
  | RAM
  | CONST
  | UNIQUE
deriving DecidableEq, Repr

/-- The struct `PcodeOperand` (lines 58-122). The tag `type` and the union
`name / offset / number` are one sum: each alternative carries the union member
that is active for its tag, and the field `size`, which every operand has. -/
inductive PcodeOperand where
  | REGISTER (name : String) (size : Nat)
  | RAM (offset : Nat) (size : Nat)
  | CONST (number : Nat) (size : Nat)
  | UNIQUE (offset : Nat) (size : Nat)
deriving DecidableEq, Repr

/-- How a constructor call ends: the object is constructed, the constructor
throws `LowlevelError`, or it runs into undefined behaviour. -/
inductive Construction (α : Type) where
  | constructed (x : α)
  | thrown (e : LowlevelError)
  | undefined
deriving DecidableEq, Repr

namespace PcodeOperand

/-- The member `type`. -/
def type : PcodeOperand → OperandType
  | REGISTER _ _ => OperandType.REGISTER
  | RAM _ _ => OperandType.RAM
  | CONST _ _ => OperandType.CONST
  | UNIQUE _ _ => OperandType.UNIQUE

/-- The member `size`. -/
def size : PcodeOperand → Nat
  | REGISTER _ size => size
  | RAM _ size => size
  | CONST _ size => size
  | UNIQUE _ size => size

/-- Line 60: `PcodeOperand(uintb offset, uint4 size): type(RAM), offset(offset), size(size)`. -/
def ofOffset (offset size : Nat) : PcodeOperand := RAM offset size

/-- Line 61: `PcodeOperand(uintb number): type(CONST), number(number), size(0)`. -/
def ofNumber (number : Nat) : PcodeOperand := CONST number 0

/-- Line 62: `PcodeOperand(const std::string &name, uint4 size): type(REGISTER), name(name), size(size)`. -/
def ofName (name : String) (size : Nat) : PcodeOperand := REGISTER name size

/-- The copy constructor (lines 85-98). It has no mem-initializer, so no member
of the union is constructed when its body starts. `type` and `size` are
assigned, then the `switch` assigns the member selected by `type`.
* `case REGISTER: name = rhs.name;` (line 92) calls the assignment operator of
  `std::string` on a member that was never constructed (line 62, by contrast,
  constructs it with `name(name)`): undefined behaviour.
* `case UNIQUE`, `case RAM`: `offset = rhs.offset;` and `case CONST:`
  `number = rhs.number;` assign integers, which starts the member.
* The `default` arm throws for a tag that is none of the four enumerators; no
  value of `OperandType` reaches it. -/
def copy (rhs : PcodeOperand) : Construction PcodeOperand :=
  match rhs with
  | REGISTER _ _ => Construction.undefined
  | UNIQUE offset size => Construction.constructed (UNIQUE offset size)
  | RAM offset size => Construction.constructed (RAM offset size)
  | CONST number size => Construction.constructed (CONST number size)

/-- The member `operator==` (lines 100-113). The last arm is the early
`if(type != rhs.type) return false;`: it is taken exactly by the pairs whose
tags differ. The four arms before it are the `switch` on the common tag. -/
def operatorEq : PcodeOperand → PcodeOperand → Bool
  | REGISTER name _, REGISTER name' _ => name == name'
  | UNIQUE offset size, UNIQUE offset' size' => offset == offset' && size == size'
  | RAM offset size, RAM offset' size' => offset == offset' && size == size'
  | CONST number _, CONST number' _ => number == number'
  | _, _ => false

/-- Line 115. -/
def is_unique (x : PcodeOperand) : Bool := x.type == OperandType.UNIQUE

/-- Line 117. -/
def is_const (x : PcodeOperand) : Bool := x.type == OperandType.CONST

/-- Line 119. -/
def is_ram (x : PcodeOperand) : Bool := x.type == OperandType.RAM

/-- Line 121. -/
def is_reg (x : PcodeOperand) : Bool := x.type == OperandType.REGISTER

end PcodeOperand

/-! ## Micro-operations and the sequence builder -/

/-- Modelled from the spec: the engine's operation code `OpCode` is declared
outside `SleighAsm.h`; spec section 3 calls it the engine's fixed
operation-code set. The embedded code stores it and compares it with
`CPUI_CALLOTHER`, nothing else. -/
structure OpCode where
  code : Nat
deriving DecidableEq, Repr

/-- Modelled from the spec: the memory-store operation code of the engine. -/
def CPUI_STORE : OpCode := OpCode.mk 3

/-- Modelled from the spec: the call-other operation code of the engine. -/
def CPUI_CALLOTHER : OpCode := OpCode.mk 9

/-- Modelled from the spec: the address spaces the conversion rule of spec
section 4.2 tells apart (constant, register, unique, anything else). -/
inductive AddrSpace where
  | constant
  | register
  | unique
  | other
deriving DecidableEq, Repr

/-- Modelled from the spec: the engine's `Address`; `dump` receives it and does
not use it. -/
structure Address where
  space : AddrSpace
  offset : Nat
deriving DecidableEq, Repr

/-- Modelled from the spec: the engine's raw varnode descriptor, an address
space / offset / size triple (spec section 4.2 and glossary). -/
structure VarnodeData where
  space : AddrSpace
  offset : Nat
  size : Nat
deriving DecidableEq, Repr

/-- Modelled from the spec: the conversion rule of `parse_vardata`, which the
header only declares (line 167). Spec section 4.2: a varnode in the constant
space becomes Constant, one in the register space becomes Register (its name
resolved by the canonicalizer, here the parameter `regName`), one in the unique
space becomes Temporary, anything else becomes Memory. -/
def varnodeOperand (regName : Nat → Nat → String) (data : VarnodeData) : PcodeOperand :=
  match data.space with
  | AddrSpace.constant => PcodeOperand.ofNumber data.offset
  | AddrSpace.register => PcodeOperand.ofName (regName data.offset data.size) data.size
  | AddrSpace.unique => PcodeOperand.UNIQUE data.offset data.size
  | AddrSpace.other => PcodeOperand.ofOffset data.offset data.size

/-- The address of an operand on the free store. -/
abbrev Ptr := Nat

/-- The struct `Pcodeop` (lines 128-151): an operation code and three operand
pointers, each `nullptr` by default. -/
structure Pcodeop where
  type : OpCode
  output : Option Ptr
  input0 : Option Ptr
  input1 : Option Ptr
deriving DecidableEq, Repr

/-- Lines 137-140: `Pcodeop(opc, in0, in1, out): type(opc), input0(in0), input1(in1), output(out)`. -/
def Pcodeop.ctor (opc : OpCode) (in0 in1 out : Option Ptr) : Pcodeop :=
  { type := opc, output := out, input0 := in0, input1 := in1 }

/-- The state `PcodeSlg::dump` works on: the member `pcodes` (line 170) and the
free store, listing the operands allocated so far in allocation order. The
operand at address `p` is `store[p]`; addresses are never reused. -/
structure PcodeSlg where
  pcodes : List Pcodeop
  store : List PcodeOperand
deriving DecidableEq, Repr

/-- How a call ends: it returns, it throws `LowlevelError`, or it reads an entry
of `vars` that the caller did not provide. The first two carry the state the
call leaves behind. -/
inductive Outcome where
  | returned (s : PcodeSlg)
  | thrown (e : LowlevelError) (s : PcodeSlg)
  | undefined
deriving DecidableEq, Repr

/-- Whether the call threw. -/
def Outcome.raised : Outcome → Bool
  | Outcome.thrown _ _ => true
  | _ => false

namespace PcodeSlg

/-- Dereference an operand pointer; `nullptr` and addresses never allocated give `none`. -/
def deref (self : PcodeSlg) (p : Option Ptr) : Option PcodeOperand :=
  match p with
  | none => none
  | some a => self.store[a]?

/-- Modelled from the spec: `parse_vardata` (declared on line 167, defined
outside the header) converts one varnode by the rule `conv` and returns a
pointer to a new operand that the receiving micro-operation owns (spec
sections 3 and 4.2). The rule is total in the spec. -/
def parse_vardata (conv : VarnodeData → PcodeOperand) (self : PcodeSlg) (data : VarnodeData) :
    Ptr × PcodeSlg :=
  (self.store.length, { self with store := self.store ++ [conv data] })

/-- Lines 191-194: after the `switch`, an explicit output varnode is parsed into
`out`, and the micro-operation is appended to `pcodes`. -/
def dump_finish (conv : VarnodeData → PcodeOperand) (opc : OpCode)
    (outvar : Option VarnodeData) (out in1 in0 : Option Ptr) (self : PcodeSlg) : Outcome :=
  match outvar with
  | some data =>
    let r := self.parse_vardata conv data
    Outcome.returned { r.2 with pcodes := r.2.pcodes ++ [Pcodeop.ctor opc in0 in1 (some r.1)] }
  | none =>
    Outcome.returned { self with pcodes := self.pcodes ++ [Pcodeop.ctor opc in0 in1 out] }

/-- Line 186, `case 1: in0 = parse_vardata(vars[0]);`, falling through to `case 0: break;`. -/
def dump_case1 (conv : VarnodeData → PcodeOperand) (opc : OpCode)
    (outvar : Option VarnodeData) (vars : List VarnodeData) (out in1 : Option Ptr)
    (self : PcodeSlg) : Outcome :=
  match vars[0]? with
  | none => Outcome.undefined
  | some data =>
    let r := self.parse_vardata conv data
    dump_finish conv opc outvar out in1 (some r.1) r.2

/-- Line 185, `case 2: in1 = parse_vardata(vars[1]);`, falling through to case 1. -/
def dump_case2 (conv : VarnodeData → PcodeOperand) (opc : OpCode)
    (outvar : Option VarnodeData) (vars : List VarnodeData) (out : Option Ptr)
    (self : PcodeSlg) : Outcome :=
  match vars[1]? with
  | none => Outcome.undefined
  | some data =>
    let r := self.parse_vardata conv data
    dump_case1 conv opc outvar vars out (some r.1) r.2

/-- Line 184, `case 3: out = parse_vardata(vars[2]);`, falling through to case 2. -/
def dump_case3 (conv : VarnodeData → PcodeOperand) (opc : OpCode)
    (outvar : Option VarnodeData) (vars : List VarnodeData) (self : PcodeSlg) : Outcome :=
  match vars[2]? with
  | none => Outcome.undefined
  | some data =>
    let r := self.parse_vardata conv data
    dump_case2 conv opc outvar vars (some r.1) r.2

/-- The callback `PcodeSlg::dump` (lines 174-195). `out`, `in0`, `in1` start as
`nullptr`; the input count of a call-other operation is clamped to 2; the
`switch` enters at `isize` and falls through to `case 0`; any other count
throws before anything is parsed or appended. -/
def dump (conv : VarnodeData → PcodeOperand) (self : PcodeSlg) (_addr : Address) (opc : OpCode)
    (outvar : Option VarnodeData) (vars : List VarnodeData) (isize : Int) : Outcome :=
  let isize := if opc = CPUI_CALLOTHER then (if isize > 2 then 2 else isize) else isize
  if isize = 3 then dump_case3 conv opc outvar vars self
  else if isize = 2 then dump_case2 conv opc outvar vars none self
  else if isize = 1 then dump_case1 conv opc outvar vars none none self
  else if isize = 0 then dump_finish conv opc outvar none none none self
  else Outcome.thrown (LowlevelError.mk "Unexpexted isize in PcodeSlg::dump()") self

end PcodeSlg

/-- One invocation of the emission callback: the arguments of `dump`. -/
structure Emission where
  addr : Address
  opc : OpCode
  outvar : Option VarnodeData
  vars : List VarnodeData
  isize : Int
deriving DecidableEq, Repr

/-- The engine invoking the callback once per emission, in order; the first
call that does not return ends the run with its outcome. -/
def PcodeSlg.dumpAll (conv : VarnodeData → PcodeOperand) : PcodeSlg → List Emission → Outcome
  | s, [] => Outcome.returned s
  | s, e :: es =>
    match s.dump conv e.addr e.opc e.outvar e.vars e.isize with
    | Outcome.returned s' => PcodeSlg.dumpAll conv s' es
    | Outcome.thrown err s' => Outcome.thrown err s'
    | Outcome.undefined => Outcome.undefined

/-! ## Releasing operands -/

/-- The member `Pcodeop::fini` (lines 142-150): `output`, `input0` and `input1`
are passed to `delete`, in this order, each only when it is not `nullptr`.
`deleted` is the log of the pointers passed to `delete` so far. -/
def Pcodeop.fini (self : Pcodeop) (deleted : List Ptr) : List Ptr :=
  let d1 := match self.output with
    | some p => deleted ++ [p]
    | none => deleted
  let d2 := match self.input0 with
    | some p => d1 ++ [p]
    | none => d1
  match self.input1 with
  | some p => d2 ++ [p]
  | none => d2

/-- The state of the destructor of `PcodeSlg`: the member `pcodes`, the
micro-operations on which `fini` has been called, in call order, and the
pointers passed to `delete`, in call order. -/
structure Teardown where
  pcodes : List Pcodeop
  finis : List Pcodeop
  deleted : List Ptr
deriving DecidableEq, Repr

/-- The loop of the destructor of `PcodeSlg` (lines 197-204):
`while(!pcodes.empty()) { pcodes.back().fini(); pcodes.pop_back(); }`.
`fuel` bounds the number of times the loop condition is tested; `none` means
the bound was reached with the loop still running. -/
def PcodeSlg.dtor_loop : Nat → Teardown → Option Teardown
  | 0, _ => none
  | fuel + 1, t =>
    match t.pcodes.getLast? with
    | none => some t
    | some back =>
      PcodeSlg.dtor_loop fuel
        { pcodes := t.pcodes.dropLast,
          finis := t.finis ++ [back],
          deleted := back.fini t.deleted }

/-! ## Byte source adapter -/

/-- The member `AsmLoadImage::adjustVma` (line 33): the body is a single `throw`. -/
def AsmLoadImage.adjustVma (_adjust : Int) : Except LowlevelError Unit :=
  Except.error (LowlevelError.mk "Cannot adjust rizin virtual memory")

/-! ## Union members and temporaries with a defining operation -/

/-- The union member `name`, active while the tag is REGISTER. -/
def PcodeOperand.name? : PcodeOperand → Option String
  | PcodeOperand.REGISTER name _ => some name
  | _ => none

/-- The union member `offset`, active while the tag is RAM or UNIQUE. -/
def PcodeOperand.offset? : PcodeOperand → Option Nat
  | PcodeOperand.RAM offset _ => some offset
  | PcodeOperand.UNIQUE offset _ => some offset
  | _ => none

/-- The union member `number`, active while the tag is CONST. -/
def PcodeOperand.number? : PcodeOperand → Option Nat
  | PcodeOperand.CONST number _ => some number
  | _ => none

/-- The struct `UniquePcodeOperand` (lines 155-160): a `PcodeOperand` base and
the pointer `def` to the defining micro-operation, `nullptr` by default; the
pointer is the position of that micro-operation in its sequence. -/
structure UniquePcodeOperand where
  base : PcodeOperand
  defOp : Option Nat
deriving DecidableEq, Repr

/-- Line 158: `UniquePcodeOperand(const PcodeOperand *from): PcodeOperand(*from) {}`;
the base is copy-constructed from the pointee, ending as that copy construction
ends, and `def` keeps its default. -/
def UniquePcodeOperand.ofOperand (src : PcodeOperand) : Construction UniquePcodeOperand :=
  match PcodeOperand.copy src with
  | Construction.constructed b => Construction.constructed { base := b, defOp := none }
  | Construction.thrown e => Construction.thrown e
  | Construction.undefined => Construction.undefined

/-! ## Operand equality -/

/-- The early return of `operator==`: operands with different tags compare unequal. -/
theorem operatorEq_of_type_ne (a b : PcodeOperand) (h : a.type ≠ b.type) :
    a.operatorEq b = false := by
  cases a <;> cases b <;> simp_all [PcodeOperand.operatorEq, PcodeOperand.type]

/-- Equal operands carry the same tag. -/
theorem type_eq_of_operatorEq (a b : PcodeOperand) (h : a.operatorEq b = true) :
    a.type = b.type := by
  by_contra hne
  rw [operatorEq_of_type_ne a b hne] at h
  exact Bool.false_ne_true h

/-- C1. `operator==` is an equivalence relation on operands of the four
variants: it is reflexive, symmetric and transitive. -/
theorem C1_operatorEq_equivalence :
    (∀ a : PcodeOperand, a.operatorEq a = true) ∧
    (∀ a b : PcodeOperand, a.operatorEq b = true → b.operatorEq a = true) ∧
    (∀ a b c : PcodeOperand, a.operatorEq b = true → b.operatorEq c = true →
      a.operatorEq c = true) := by
  refine ⟨?_, ?_, ?_⟩
  · intro a
    cases a <;> simp [PcodeOperand.operatorEq]
  · intro a b h
    cases a <;> cases b <;> simp_all [PcodeOperand.operatorEq]
  · intro a b c hab hbc
    cases a <;> cases b <;> simp_all [PcodeOperand.operatorEq] <;>
      cases c <;> simp_all [PcodeOperand.operatorEq]

/-- C1 at concrete operands: symmetry and transitivity on registers that differ
only in width. -/
theorem C1_operatorEq_equivalence_witness :
    (PcodeOperand.REGISTER "eax" 4).operatorEq (PcodeOperand.REGISTER "eax" 2) = true ∧
    (PcodeOperand.REGISTER "eax" 2).operatorEq (PcodeOperand.REGISTER "eax" 4) = true ∧
    (PcodeOperand.REGISTER "eax" 4).operatorEq (PcodeOperand.REGISTER "eax" 1) = true :=
  ⟨by rfl,
    C1_operatorEq_equivalence.2.1 (PcodeOperand.REGISTER "eax" 4)
      (PcodeOperand.REGISTER "eax" 2) (by rfl),
    C1_operatorEq_equivalence.2.2 (PcodeOperand.REGISTER "eax" 4)
      (PcodeOperand.REGISTER "eax" 2) (PcodeOperand.REGISTER "eax" 1) (by rfl) (by rfl)⟩

/-- C2. `operator==` discriminates the variants: operands whose tags differ
are unequal whatever their payloads and widths; a RAM and a UNIQUE operand with
the same offset and size are unequal, and a CONST operand of value v is unequal
to a RAM operand of offset v. -/
theorem C2_operatorEq_variant_discriminating :
    (∀ a b : PcodeOperand, a.type ≠ b.type →
      a.operatorEq b = false ∧ b.operatorEq a = false) ∧
    (∀ offset size : Nat,
      (PcodeOperand.RAM offset size).operatorEq (PcodeOperand.UNIQUE offset size) = false ∧
      (PcodeOperand.UNIQUE offset size).operatorEq (PcodeOperand.RAM offset size) = false) ∧
    (∀ v size size' : Nat,
      (PcodeOperand.CONST v size).operatorEq (PcodeOperand.RAM v size') = false ∧
      (PcodeOperand.RAM v size').operatorEq (PcodeOperand.CONST v size) = false) := by
  refine ⟨?_, ?_, ?_⟩
  · intro a b h
    exact ⟨operatorEq_of_type_ne a b h, operatorEq_of_type_ne b a (Ne.symm h)⟩
  · intro offset size
    simp [PcodeOperand.operatorEq]
  · intro v size size'
    simp [PcodeOperand.operatorEq]

/-- C2 at concrete operands: a register and a memory operand whose payloads
coincide numerically in width. -/
theorem C2_operatorEq_variant_discriminating_witness :
    (PcodeOperand.REGISTER "r4" 4).type ≠ (PcodeOperand.RAM 4 4).type ∧
    (PcodeOperand.REGISTER "r4" 4).operatorEq (PcodeOperand.RAM 4 4) = false ∧
    (PcodeOperand.RAM 4 4).operatorEq (PcodeOperand.REGISTER "r4" 4) = false :=
  ⟨by decide,
    C2_operatorEq_variant_discriminating.1 (PcodeOperand.REGISTER "r4" 4)
      (PcodeOperand.RAM 4 4) (by decide)⟩

/-- C3. Between operands of one variant `operator==` is the rule of the data
model: REGISTER operands are equal iff their names are (the widths are not
compared), RAM operands iff offset and size are, UNIQUE operands iff offset and
size are, CONST operands iff their values are. -/
theorem C3_operatorEq_per_variant :
    (∀ (name name' : String) (size size' : Nat),
      (PcodeOperand.REGISTER name size).operatorEq (PcodeOperand.REGISTER name' size') = true
        ↔ name = name') ∧
    (∀ offset size offset' size' : Nat,
      (PcodeOperand.RAM offset size).operatorEq (PcodeOperand.RAM offset' size') = true
        ↔ offset = offset' ∧ size = size') ∧
    (∀ offset size offset' size' : Nat,
      (PcodeOperand.UNIQUE offset size).operatorEq (PcodeOperand.UNIQUE offset' size') = true
        ↔ offset = offset' ∧ size = size') ∧
    (∀ number size number' size' : Nat,
      (PcodeOperand.CONST number size).operatorEq (PcodeOperand.CONST number' size') = true
        ↔ number = number') := by
  refine ⟨?_, ?_, ?_, ?_⟩ <;> intros <;> simp [PcodeOperand.operatorEq]

/-- Copy-constructing a register operand is undefined behaviour (line 92). -/
theorem copy_undefined_of_reg (x : PcodeOperand) (h : x.is_reg = true) :
    PcodeOperand.copy x = Construction.undefined := by
  cases x <;> simp_all [PcodeOperand.copy, PcodeOperand.is_reg, PcodeOperand.type]

/-- For a memory, constant or temporary operand the copy constructor constructs
a copy, and the copy compares equal to its source in both directions. -/
theorem copy_equal_of_not_reg (x : PcodeOperand) (h : x.is_reg = false) :
    ∃ y : PcodeOperand, PcodeOperand.copy x = Construction.constructed y ∧
      y.operatorEq x = true ∧ x.operatorEq y = true := by
  cases x <;>
    simp_all [PcodeOperand.copy, PcodeOperand.operatorEq, PcodeOperand.is_reg,
      PcodeOperand.type]

/-- C4 fails for register operands: copy-constructing the operand built from
the name "eax" and width 4 ends in undefined behaviour at line 92, so the
constructor yields no copy that could compare equal to its source. -/
theorem C4_copy_register_undefined :
    PcodeOperand.copy (PcodeOperand.ofName "eax" 4) = Construction.undefined ∧
    ¬ ∃ y : PcodeOperand,
      PcodeOperand.copy (PcodeOperand.ofName "eax" 4) = Construction.constructed y ∧
      y.operatorEq (PcodeOperand.ofName "eax" 4) = true := by
  simp [PcodeOperand.copy, PcodeOperand.ofName]

/-- C5 (amended). Each of the three constructors yields an operand of its own
variant: built from a name and width it answers true to is_reg only, built from
an address and width true to is_ram only, built from a value true to is_const
only; none of them throws, and none yields a temporary. -/
theorem C5_constructors_kind :
    (∀ (name : String) (size : Nat),
      (PcodeOperand.ofName name size).is_reg = true ∧
      (PcodeOperand.ofName name size).is_ram = false ∧
      (PcodeOperand.ofName name size).is_const = false ∧
      (PcodeOperand.ofName name size).is_unique = false) ∧
    (∀ offset size : Nat,
      (PcodeOperand.ofOffset offset size).is_ram = true ∧
      (PcodeOperand.ofOffset offset size).is_reg = false ∧
      (PcodeOperand.ofOffset offset size).is_const = false ∧
      (PcodeOperand.ofOffset offset size).is_unique = false) ∧
    (∀ number : Nat,
      (PcodeOperand.ofNumber number).is_const = true ∧
      (PcodeOperand.ofNumber number).is_reg = false ∧
      (PcodeOperand.ofNumber number).is_ram = false ∧
      (PcodeOperand.ofNumber number).is_unique = false) := by
  refine ⟨?_, ?_, ?_⟩ <;> intros <;>
    simp [PcodeOperand.ofName, PcodeOperand.ofOffset, PcodeOperand.ofNumber,
      PcodeOperand.is_reg, PcodeOperand.is_ram, PcodeOperand.is_const,
      PcodeOperand.is_unique, PcodeOperand.type]

/-- C5 as stated fails for the temporary payload: the only constructor taking
an offset and a width is the one of line 60, and the operand it builds from
offset 0x80 and width 4 answers false to is_unique and true to is_ram; no
constructor of the struct builds an operand that answers true to is_unique. -/
theorem C5_counterexample_temporary :
    (PcodeOperand.ofOffset 0x80 4).is_unique = false ∧
    (PcodeOperand.ofOffset 0x80 4).is_ram = true ∧
    ¬ (∃ offset size : Nat, (PcodeOperand.ofOffset offset size).is_unique = true) ∧
    ¬ (∃ number : Nat, (PcodeOperand.ofNumber number).is_unique = true) ∧
    ¬ (∃ (name : String) (size : Nat), (PcodeOperand.ofName name size).is_unique = true) := by
  simp [PcodeOperand.ofName, PcodeOperand.ofOffset, PcodeOperand.ofNumber,
    PcodeOperand.is_ram, PcodeOperand.is_unique, PcodeOperand.type]

/-! ## The emission callback -/

/-- Reading the free store past a known prefix reads the appended part. -/
theorem getElem?_append_add {α : Type} (l r : List α) (k : Nat) :
    (l ++ r)[l.length + k]? = r[k]? := by
  rw [List.getElem?_append_right (Nat.le_add_right _ _)]
  simp

/-- The first appended cell sits at the old length of the free store. -/
theorem getElem?_append_length {α : Type} (l r : List α) :
    (l ++ r)[l.length]? = r[0]? := by
  simpa using getElem?_append_add l r 0

/-- C6 (amended). With exactly 3 inputs and an operation code other than
CPUI_CALLOTHER, dump returns and the appended micro-operation has input0 from
vars[0] and input1 from vars[1], whether or not an explicit output varnode is
supplied. Without an explicit output varnode its output slot is populated from
vars[2], and these three operands are all that the call constructs; with one,
the output slot holds the operand parsed from the explicit output varnode.
This holds for every such operation code. -/
theorem C6_three_inputs_output_slot (conv : VarnodeData → PcodeOperand) (s : PcodeSlg)
    (addr : Address) (opc : OpCode) (hopc : opc ≠ CPUI_CALLOTHER)
    (outvar : Option VarnodeData) (v0 v1 v2 : VarnodeData) (rest : List VarnodeData) :
    ∃ (s' : PcodeSlg) (op : Pcodeop),
      s.dump conv addr opc outvar (v0 :: v1 :: v2 :: rest) 3 = Outcome.returned s' ∧
      s'.pcodes = s.pcodes ++ [op] ∧ op.type = opc ∧
      s'.deref op.input0 = some (conv v0) ∧
      s'.deref op.input1 = some (conv v1) ∧
      op.input0 ≠ op.input1 ∧
      (outvar = none →
        s'.deref op.output = some (conv v2) ∧
        s'.store = s.store ++ [conv v2, conv v1, conv v0]) ∧
      (∀ ov : VarnodeData, outvar = some ov → s'.deref op.output = some (conv ov)) := by
  cases outvar with
  | none =>
    simp [PcodeSlg.dump, hopc, PcodeSlg.dump_case3, PcodeSlg.dump_case2, PcodeSlg.dump_case1,
      PcodeSlg.dump_finish, PcodeSlg.parse_vardata, PcodeSlg.deref, Pcodeop.ctor]
    refine ⟨?_, ?_, ?_⟩ <;> simp [List.getElem_append_right]
  | some ov =>
    simp [PcodeSlg.dump, hopc, PcodeSlg.dump_case3, PcodeSlg.dump_case2, PcodeSlg.dump_case1,
      PcodeSlg.dump_finish, PcodeSlg.parse_vardata, PcodeSlg.deref, Pcodeop.ctor]
    refine ⟨?_, ?_, ?_⟩ <;> simp [List.getElem_append_right]

/-- C6 (amended) at a concrete emission: 3 inputs, two registers and the
constant 4, with an explicit output in the unique space, on an empty builder. -/
theorem C6_three_inputs_output_slot_witness :
    OpCode.mk 65 ≠ CPUI_CALLOTHER ∧
    ∃ (s' : PcodeSlg) (op : Pcodeop),
      (PcodeSlg.mk [] []).dump (varnodeOperand (fun _ _ => "r0"))
        (Address.mk AddrSpace.other 0x1000) (OpCode.mk 65)
        (some (VarnodeData.mk AddrSpace.unique 0x100 4))
        (VarnodeData.mk AddrSpace.register 0 4 :: VarnodeData.mk AddrSpace.register 8 4 ::
          VarnodeData.mk AddrSpace.constant 4 4 :: []) 3 = Outcome.returned s' ∧
      s'.pcodes = (PcodeSlg.mk [] []).pcodes ++ [op] ∧ op.type = OpCode.mk 65 ∧
      s'.deref op.input0 =
        some (varnodeOperand (fun _ _ => "r0") (VarnodeData.mk AddrSpace.register 0 4)) ∧
      s'.deref op.input1 =
        some (varnodeOperand (fun _ _ => "r0") (VarnodeData.mk AddrSpace.register 8 4)) ∧
      op.input0 ≠ op.input1 ∧
      (some (VarnodeData.mk AddrSpace.unique 0x100 4) = none →
        s'.deref op.output =
          some (varnodeOperand (fun _ _ => "r0") (VarnodeData.mk AddrSpace.constant 4 4)) ∧
        s'.store = (PcodeSlg.mk [] []).store ++
          [varnodeOperand (fun _ _ => "r0") (VarnodeData.mk AddrSpace.constant 4 4),
            varnodeOperand (fun _ _ => "r0") (VarnodeData.mk AddrSpace.register 8 4),
            varnodeOperand (fun _ _ => "r0") (VarnodeData.mk AddrSpace.register 0 4)]) ∧
      (∀ ov : VarnodeData, some (VarnodeData.mk AddrSpace.unique 0x100 4) = some ov →
        s'.deref op.output = some (varnodeOperand (fun _ _ => "r0") ov)) :=
  ⟨by decide,
    C6_three_inputs_output_slot (varnodeOperand (fun _ _ => "r0")) (PcodeSlg.mk [] [])
      (Address.mk AddrSpace.other 0x1000) (OpCode.mk 65) (by decide)
      (some (VarnodeData.mk AddrSpace.unique 0x100 4))
      (VarnodeData.mk AddrSpace.register 0 4) (VarnodeData.mk AddrSpace.register 8 4)
      (VarnodeData.mk AddrSpace.constant 4 4) []⟩

/-- C6 as stated fails when an explicit output varnode is supplied: for a
3-input emission of operation code 65 (not CPUI_CALLOTHER) with inputs two
registers and the constant 4, and an explicit output in the unique space, the
output slot of the appended micro-operation holds the temporary parsed from the
explicit output, not the constant parsed from vars[2]. -/
theorem C6_counterexample_explicit_output :
    OpCode.mk 65 ≠ CPUI_CALLOTHER ∧
    ∃ (s' : PcodeSlg) (op : Pcodeop),
      (PcodeSlg.mk [] []).dump (varnodeOperand (fun _ _ => "r0"))
        (Address.mk AddrSpace.other 0x1000) (OpCode.mk 65)
        (some (VarnodeData.mk AddrSpace.unique 0x100 4))
        [VarnodeData.mk AddrSpace.register 0 4, VarnodeData.mk AddrSpace.register 8 4,
          VarnodeData.mk AddrSpace.constant 4 4] 3 = Outcome.returned s' ∧
      s'.pcodes = [op] ∧
      s'.deref op.output = some (PcodeOperand.UNIQUE 0x100 4) ∧
      s'.deref op.output ≠
        some (varnodeOperand (fun _ _ => "r0") (VarnodeData.mk AddrSpace.constant 4 4)) := by
  refine ⟨by decide, ?_⟩
  simp [PcodeSlg.dump, CPUI_CALLOTHER, PcodeSlg.dump_case3, PcodeSlg.dump_case2,
    PcodeSlg.dump_case1, PcodeSlg.dump_finish, PcodeSlg.parse_vardata, PcodeSlg.deref,
    Pcodeop.ctor, varnodeOperand, PcodeOperand.ofNumber, PcodeOperand.ofName]

/-- C7. For a CPUI_CALLOTHER emission reporting 3 or more inputs, dump returns
and the appended micro-operation has input0 from vars[0] and input1 from
vars[1]; the output slot is empty without an explicit output varnode and holds
the explicit output's operand otherwise; no operand is constructed for vars[2]
or later entries, and the call ends the same way when vars holds only its first
two entries, so those entries are never read. -/
theorem C7_callother_clamped (conv : VarnodeData → PcodeOperand) (s : PcodeSlg)
    (addr : Address) (outvar : Option VarnodeData) (v0 v1 : VarnodeData)
    (rest : List VarnodeData) (isize : Int) (h : 3 ≤ isize) :
    ∃ (s' : PcodeSlg) (op : Pcodeop),
      s.dump conv addr CPUI_CALLOTHER outvar (v0 :: v1 :: rest) isize = Outcome.returned s' ∧
      s'.pcodes = s.pcodes ++ [op] ∧ op.type = CPUI_CALLOTHER ∧
      s'.deref op.input0 = some (conv v0) ∧
      s'.deref op.input1 = some (conv v1) ∧
      (outvar = none → op.output = none ∧ s'.store = s.store ++ [conv v1, conv v0]) ∧
      (∀ ov : VarnodeData, outvar = some ov →
        s'.deref op.output = some (conv ov) ∧
        s'.store = s.store ++ [conv v1, conv v0, conv ov]) ∧
      s.dump conv addr CPUI_CALLOTHER outvar [v0, v1] isize = Outcome.returned s' := by
  have h2 : isize > 2 := by omega
  cases outvar with
  | none =>
    simp [PcodeSlg.dump, h2, PcodeSlg.dump_case2, PcodeSlg.dump_case1,
      PcodeSlg.dump_finish, PcodeSlg.parse_vardata, PcodeSlg.deref, Pcodeop.ctor]
    refine ⟨?_, ?_⟩ <;> simp [List.getElem_append_right]
  | some ov =>
    simp [PcodeSlg.dump, h2, PcodeSlg.dump_case2, PcodeSlg.dump_case1,
      PcodeSlg.dump_finish, PcodeSlg.parse_vardata, PcodeSlg.deref, Pcodeop.ctor]
    refine ⟨?_, ?_, ?_⟩ <;> simp [List.getElem_append_right]

/-- C7 at a concrete emission: a call-other operation reporting 7 inputs with an
explicit output. -/
theorem C7_callother_clamped_witness :
    (3 : Int) ≤ 7 ∧
    ∃ (s' : PcodeSlg) (op : Pcodeop),
      (PcodeSlg.mk [] []).dump (varnodeOperand (fun _ _ => "r0"))
        (Address.mk AddrSpace.other 0x1000) CPUI_CALLOTHER
        (some (VarnodeData.mk AddrSpace.unique 0x100 4))
        (VarnodeData.mk AddrSpace.constant 1 4 :: VarnodeData.mk AddrSpace.register 8 4 ::
          [VarnodeData.mk AddrSpace.constant 4 4]) 7 = Outcome.returned s' ∧
      s'.pcodes = (PcodeSlg.mk [] []).pcodes ++ [op] ∧ op.type = CPUI_CALLOTHER ∧
      s'.deref op.input0 =
        some (varnodeOperand (fun _ _ => "r0") (VarnodeData.mk AddrSpace.constant 1 4)) ∧
      s'.deref op.input1 =
        some (varnodeOperand (fun _ _ => "r0") (VarnodeData.mk AddrSpace.register 8 4)) ∧
      (some (VarnodeData.mk AddrSpace.unique 0x100 4) = none →
        op.output = none ∧
        s'.store = (PcodeSlg.mk [] []).store ++
          [varnodeOperand (fun _ _ => "r0") (VarnodeData.mk AddrSpace.register 8 4),
            varnodeOperand (fun _ _ => "r0") (VarnodeData.mk AddrSpace.constant 1 4)]) ∧
      (∀ ov : VarnodeData, some (VarnodeData.mk AddrSpace.unique 0x100 4) = some ov →
        s'.deref op.output = some (varnodeOperand (fun _ _ => "r0") ov) ∧
        s'.store = (PcodeSlg.mk [] []).store ++
          [varnodeOperand (fun _ _ => "r0") (VarnodeData.mk AddrSpace.register 8 4),
            varnodeOperand (fun _ _ => "r0") (VarnodeData.mk AddrSpace.constant 1 4),
            varnodeOperand (fun _ _ => "r0") ov]) ∧
      (PcodeSlg.mk [] []).dump (varnodeOperand (fun _ _ => "r0"))
        (Address.mk AddrSpace.other 0x1000) CPUI_CALLOTHER
        (some (VarnodeData.mk AddrSpace.unique 0x100 4))
        [VarnodeData.mk AddrSpace.constant 1 4, VarnodeData.mk AddrSpace.register 8 4] 7
        = Outcome.returned s' :=
  ⟨by decide, C7_callother_clamped _ _ _ _ _ _ _ 7 (by decide)⟩

/-- The tail of dump after the switch always returns. -/
theorem dump_finish_raised (conv : VarnodeData → PcodeOperand) (opc : OpCode)
    (outvar : Option VarnodeData) (out in1 in0 : Option Ptr) (s : PcodeSlg) :
    (PcodeSlg.dump_finish conv opc outvar out in1 in0 s).raised = false := by
  cases outvar <;> simp [PcodeSlg.dump_finish, Outcome.raised]

/-- Entering the switch at case 1 never throws. -/
theorem dump_case1_raised (conv : VarnodeData → PcodeOperand) (opc : OpCode)
    (outvar : Option VarnodeData) (vars : List VarnodeData) (out in1 : Option Ptr)
    (s : PcodeSlg) :
    (PcodeSlg.dump_case1 conv opc outvar vars out in1 s).raised = false := by
  unfold PcodeSlg.dump_case1
  split
  · rfl
  · exact dump_finish_raised _ _ _ _ _ _ _

/-- Entering the switch at case 2 never throws. -/
theorem dump_case2_raised (conv : VarnodeData → PcodeOperand) (opc : OpCode)
    (outvar : Option VarnodeData) (vars : List VarnodeData) (out : Option Ptr)
    (s : PcodeSlg) :
    (PcodeSlg.dump_case2 conv opc outvar vars out s).raised = false := by
  unfold PcodeSlg.dump_case2
  split
  · rfl
  · exact dump_case1_raised _ _ _ _ _ _ _

/-- Entering the switch at case 3 never throws. -/
theorem dump_case3_raised (conv : VarnodeData → PcodeOperand) (opc : OpCode)
    (outvar : Option VarnodeData) (vars : List VarnodeData) (s : PcodeSlg) :
    (PcodeSlg.dump_case3 conv opc outvar vars s).raised = false := by
  unfold PcodeSlg.dump_case3
  split
  · rfl
  · exact dump_case2_raised _ _ _ _ _ _

/-- The input count the switch sees: clamped to 2 for a call-other operation. -/
theorem dump_raised_iff (conv : VarnodeData → PcodeOperand) (s : PcodeSlg)
    (addr : Address) (opc : OpCode) (outvar : Option VarnodeData)
    (vars : List VarnodeData) (isize : Int) :
    (s.dump conv addr opc outvar vars isize).raised = true ↔
      ¬ ((if opc = CPUI_CALLOTHER then (if isize > 2 then 2 else isize) else isize) = 3 ∨
         (if opc = CPUI_CALLOTHER then (if isize > 2 then 2 else isize) else isize) = 2 ∨
         (if opc = CPUI_CALLOTHER then (if isize > 2 then 2 else isize) else isize) = 1 ∨
         (if opc = CPUI_CALLOTHER then (if isize > 2 then 2 else isize) else isize) = 0) := by
  unfold PcodeSlg.dump
  simp only []
  generalize (if opc = CPUI_CALLOTHER then (if isize > 2 then 2 else isize) else isize) = n
  by_cases h3 : n = 3
  · simp [h3, dump_case3_raised]
  by_cases h2 : n = 2
  · simp [h2, dump_case2_raised]
  by_cases h1 : n = 1
  · simp [h1, dump_case1_raised]
  by_cases h0 : n = 0
  · simp [h0, dump_finish_raised]
  simp [h3, h2, h1, h0, Outcome.raised]

/-- A throwing dump leaves the state it was called on. -/
theorem dump_thrown_state (conv : VarnodeData → PcodeOperand) (s : PcodeSlg)
    (addr : Address) (opc : OpCode) (outvar : Option VarnodeData)
    (vars : List VarnodeData) (isize : Int) (e : LowlevelError) (s' : PcodeSlg)
    (h : s.dump conv addr opc outvar vars isize = Outcome.thrown e s') : s' = s := by
  unfold PcodeSlg.dump at h
  simp only [] at h
  generalize (if opc = CPUI_CALLOTHER then (if isize > 2 then 2 else isize) else isize) = n at h
  have r3 := dump_case3_raised conv opc outvar vars s
  have r2 := dump_case2_raised conv opc outvar vars none s
  have r1 := dump_case1_raised conv opc outvar vars none none s
  have r0 := dump_finish_raised conv opc outvar none none none s
  split_ifs at h
  · rw [h] at r3; simp [Outcome.raised] at r3
  · rw [h] at r2; simp [Outcome.raised] at r2
  · rw [h] at r1; simp [Outcome.raised] at r1
  · rw [h] at r0; simp [Outcome.raised] at r0
  · injection h with _ hs
    exact hs.symm

/-- C8. For an operation code other than CPUI_CALLOTHER dump throws exactly
when isize is none of 0, 1, 2, 3; for CPUI_CALLOTHER it throws exactly when
isize is negative; and a call that throws leaves the builder as it was: pcodes
(and the free store) are what they were before the call. -/
theorem C8_dump_fails_fast (conv : VarnodeData → PcodeOperand) (s : PcodeSlg)
    (addr : Address) (opc : OpCode) (outvar : Option VarnodeData)
    (vars : List VarnodeData) (isize : Int) :
    (opc ≠ CPUI_CALLOTHER →
      ((s.dump conv addr opc outvar vars isize).raised = true ↔
        ¬ (isize = 0 ∨ isize = 1 ∨ isize = 2 ∨ isize = 3))) ∧
    (opc = CPUI_CALLOTHER →
      ((s.dump conv addr opc outvar vars isize).raised = true ↔ isize < 0)) ∧
    (∀ (e : LowlevelError) (s' : PcodeSlg),
      s.dump conv addr opc outvar vars isize = Outcome.thrown e s' →
        s'.pcodes = s.pcodes ∧ s' = s) := by
  refine ⟨?_, ?_, ?_⟩
  · intro hopc
    rw [dump_raised_iff]
    simp only [hopc, if_false]
    omega
  · intro hopc
    rw [dump_raised_iff]
    simp only [hopc, if_true]
    split_ifs <;> omega
  · intro e s' h
    have := dump_thrown_state conv s addr opc outvar vars isize e s' h
    exact ⟨by rw [this], this⟩

/-- C8 at concrete emissions: 4 inputs on a store throw and leave the builder
untouched; 4 inputs on a call-other operation do not throw. -/
theorem C8_dump_fails_fast_witness :
    CPUI_STORE ≠ CPUI_CALLOTHER ∧
    ((PcodeSlg.mk [] []).dump (varnodeOperand (fun _ _ => "r0"))
      (Address.mk AddrSpace.other 0x1000) CPUI_STORE none [] 4).raised = true ∧
    ¬ (((PcodeSlg.mk [] []).dump (varnodeOperand (fun _ _ => "r0"))
      (Address.mk AddrSpace.other 0x1000) CPUI_CALLOTHER none
      [VarnodeData.mk AddrSpace.constant 1 4, VarnodeData.mk AddrSpace.constant 2 4] 4).raised
        = true) ∧
    (PcodeSlg.mk [] []).pcodes = [] :=
  ⟨by decide,
    ((C8_dump_fails_fast (varnodeOperand (fun _ _ => "r0")) (PcodeSlg.mk [] [])
      (Address.mk AddrSpace.other 0x1000) CPUI_STORE none [] 4).1 (by decide)).2 (by decide),
    fun h => absurd (((C8_dump_fails_fast (varnodeOperand (fun _ _ => "r0")) (PcodeSlg.mk [] [])
      (Address.mk AddrSpace.other 0x1000) CPUI_CALLOTHER none
      [VarnodeData.mk AddrSpace.constant 1 4, VarnodeData.mk AddrSpace.constant 2 4] 4).2.1
        rfl).1 h) (by decide),
    rfl⟩

/-- C9. Whenever dump returns on an emission with an explicit output varnode,
the output slot of the appended micro-operation points to the operand parsed
from that varnode (the last operand the call constructs), whatever isize is;
with isize 3 and an operation code other than CPUI_CALLOTHER the operand parsed
from vars[2] was constructed first, at another address, and is not the one the
output slot holds. -/
theorem C9_explicit_output_overrides (conv : VarnodeData → PcodeOperand) (s s' : PcodeSlg)
    (addr : Address) (opc : OpCode) (ov : VarnodeData) (vars : List VarnodeData) (isize : Int)
    (h : s.dump conv addr opc (some ov) vars isize = Outcome.returned s') :
    ∃ (op : Pcodeop) (p : Ptr),
      s'.pcodes = s.pcodes ++ [op] ∧ op.type = opc ∧
      op.output = some p ∧ s'.deref op.output = some (conv ov) ∧
      s'.store.length = p + 1 ∧
      (isize = 3 → opc ≠ CPUI_CALLOTHER →
        ∃ v2 : VarnodeData, vars[2]? = some v2 ∧
          s'.deref (some s.store.length) = some (conv v2) ∧ p = s.store.length + 3) := by
  unfold PcodeSlg.dump at h
  simp only [] at h
  by_cases hopc : opc = CPUI_CALLOTHER
  · simp only [hopc, if_true] at h
    split_ifs at h <;>
      simp only [PcodeSlg.dump_case3, PcodeSlg.dump_case2, PcodeSlg.dump_case1,
        PcodeSlg.dump_finish, PcodeSlg.parse_vardata] at h <;>
      (repeat' split at h) <;>
      simp at h <;> subst h <;>
      simp [PcodeSlg.deref, Pcodeop.ctor, hopc] <;>
      simp [List.getElem_append_right]
  · simp only [hopc, if_false] at h
    split_ifs at h with h3 <;>
      simp only [PcodeSlg.dump_case3, PcodeSlg.dump_case2, PcodeSlg.dump_case1,
        PcodeSlg.dump_finish, PcodeSlg.parse_vardata] at h <;>
      (repeat' split at h) <;>
      simp at h <;> subst h <;>
      simp_all [PcodeSlg.deref, Pcodeop.ctor] <;>
      simp [List.getElem_append_right]

/-- C9 at a concrete emission: 3 inputs and an explicit output. -/
theorem C9_explicit_output_overrides_witness :
    ∃ (op : Pcodeop) (p : Ptr),
      [Pcodeop.mk (OpCode.mk 65) (some 3) (some 2) (some 1)] = ([] : List Pcodeop) ++ [op] ∧
      op.type = OpCode.mk 65 ∧ op.output = some p ∧
      (PcodeSlg.mk [Pcodeop.mk (OpCode.mk 65) (some 3) (some 2) (some 1)]
        [PcodeOperand.CONST 4 0, PcodeOperand.REGISTER "r0" 4, PcodeOperand.REGISTER "r0" 4,
          PcodeOperand.UNIQUE 0x100 4]).deref op.output
        = some (varnodeOperand (fun _ _ => "r0") (VarnodeData.mk AddrSpace.unique 0x100 4)) ∧
      [PcodeOperand.CONST 4 0, PcodeOperand.REGISTER "r0" 4, PcodeOperand.REGISTER "r0" 4,
        PcodeOperand.UNIQUE 0x100 4].length = p + 1 ∧
      ((3 : Int) = 3 → OpCode.mk 65 ≠ CPUI_CALLOTHER →
        ∃ v2 : VarnodeData,
          [VarnodeData.mk AddrSpace.register 0 4, VarnodeData.mk AddrSpace.register 8 4,
            VarnodeData.mk AddrSpace.constant 4 4][2]? = some v2 ∧
          (PcodeSlg.mk [Pcodeop.mk (OpCode.mk 65) (some 3) (some 2) (some 1)]
            [PcodeOperand.CONST 4 0, PcodeOperand.REGISTER "r0" 4, PcodeOperand.REGISTER "r0" 4,
              PcodeOperand.UNIQUE 0x100 4]).deref (some ([] : List PcodeOperand).length)
            = some (varnodeOperand (fun _ _ => "r0") v2) ∧
          p = ([] : List PcodeOperand).length + 3) :=
  C9_explicit_output_overrides (varnodeOperand (fun _ _ => "r0")) (PcodeSlg.mk [] [])
    (PcodeSlg.mk [Pcodeop.mk (OpCode.mk 65) (some 3) (some 2) (some 1)]
      [PcodeOperand.CONST 4 0, PcodeOperand.REGISTER "r0" 4, PcodeOperand.REGISTER "r0" 4,
        PcodeOperand.UNIQUE 0x100 4])
    (Address.mk AddrSpace.other 0x1000) (OpCode.mk 65)
    (VarnodeData.mk AddrSpace.unique 0x100 4)
    [VarnodeData.mk AddrSpace.register 0 4, VarnodeData.mk AddrSpace.register 8 4,
      VarnodeData.mk AddrSpace.constant 4 4] 3 (by rfl)

/-! ## Sequences of emissions -/

/-- A returning dump appends one micro-operation carrying the operation code of
the call, and extends the free store. -/
theorem dump_returned_append (conv : VarnodeData → PcodeOperand) (s s' : PcodeSlg)
    (addr : Address) (opc : OpCode) (outvar : Option VarnodeData)
    (vars : List VarnodeData) (isize : Int)
    (h : s.dump conv addr opc outvar vars isize = Outcome.returned s') :
    ∃ op : Pcodeop, s'.pcodes = s.pcodes ++ [op] ∧ op.type = opc ∧ s.store <+: s'.store := by
  unfold PcodeSlg.dump at h
  simp only [] at h
  generalize (if opc = CPUI_CALLOTHER then (if isize > 2 then 2 else isize) else isize) = n at h
  split_ifs at h <;>
    simp only [PcodeSlg.dump_case3, PcodeSlg.dump_case2, PcodeSlg.dump_case1,
      PcodeSlg.dump_finish, PcodeSlg.parse_vardata] at h <;>
    (repeat' split at h) <;>
    simp at h <;> subst h <;>
    simp [Pcodeop.ctor]

/-- Running a list of emissions that all return: the sequence grows by one
entry per emission, in order, earlier entries and operands staying in place. -/
theorem dumpAll_returned (conv : VarnodeData → PcodeOperand) (ems : List Emission) :
    ∀ s0 s : PcodeSlg, PcodeSlg.dumpAll conv s0 ems = Outcome.returned s →
      s.pcodes.length = s0.pcodes.length + ems.length ∧
      s0.pcodes <+: s.pcodes ∧ s0.store <+: s.store ∧
      ∀ (i : Nat) (hi : i < ems.length), ∃ (si si' : PcodeSlg) (op : Pcodeop),
        PcodeSlg.dumpAll conv s0 (ems.take i) = Outcome.returned si ∧
        si.dump conv (ems[i]).addr (ems[i]).opc (ems[i]).outvar (ems[i]).vars (ems[i]).isize
          = Outcome.returned si' ∧
        si'.pcodes = si.pcodes ++ [op] ∧ op.type = (ems[i]).opc ∧
        s.pcodes[s0.pcodes.length + i]? = some op ∧
        si'.store <+: s.store := by
  induction ems with
  | nil =>
    intro s0 s h
    simp only [PcodeSlg.dumpAll, Outcome.returned.injEq] at h
    subst h
    simp
  | cons e es ih =>
    intro s0 s h
    simp only [PcodeSlg.dumpAll] at h
    cases hd : s0.dump conv e.addr e.opc e.outvar e.vars e.isize with
    | thrown err t => rw [hd] at h; simp at h
    | undefined => rw [hd] at h; simp at h
    | returned s1 =>
      rw [hd] at h
      simp only [] at h
      obtain ⟨op0, hp0, ht0, hs0⟩ := dump_returned_append conv s0 s1 _ _ _ _ _ hd
      obtain ⟨hlen, hpre, hst, hall⟩ := ih s1 s h
      have hp0len : s1.pcodes.length = s0.pcodes.length + 1 := by simp [hp0]
      refine ⟨?_, ?_, hs0.trans hst, ?_⟩
      · rw [hlen, hp0len, List.length_cons]; omega
      · exact (hp0 ▸ List.prefix_append _ _ : s0.pcodes <+: s1.pcodes).trans hpre
      · intro i hi
        cases i with
        | zero =>
          refine ⟨s0, s1, op0, by simp [PcodeSlg.dumpAll], by simpa using hd, hp0,
            by simpa using ht0, ?_, hst⟩
          obtain ⟨t, ht⟩ := hpre
          rw [← ht, hp0, List.append_assoc]
          simpa using getElem?_append_length s0.pcodes ([op0] ++ t)
        | succ j =>
          have hj : j < es.length := by simpa using hi
          obtain ⟨si, si', op, h1, h2, h3, h4, h5, h6⟩ := hall j hj
          refine ⟨si, si', op, ?_, by simpa using h2, h3, by simpa using h4, ?_, h6⟩
          · simp only [List.take_succ_cons, PcodeSlg.dumpAll, hd]
            exact h1
          · rw [hp0len] at h5
            rw [← h5]
            congr 1
            omega

/-- C10. Each returning call of dump appends exactly one micro-operation,
carrying the operation code of the call, at the end of pcodes, leaving the
earlier entries (and the operands on the free store) unchanged; and after any
list of n emissions that all return, applied to a builder with empty pcodes,
pcodes has length n and its i-th entry is the micro-operation that the i-th
call appended, its operands still in place. -/
theorem C10_append_in_callback_order (conv : VarnodeData → PcodeOperand) :
    (∀ (s s' : PcodeSlg) (e : Emission),
      s.dump conv e.addr e.opc e.outvar e.vars e.isize = Outcome.returned s' →
        ∃ op : Pcodeop, s'.pcodes = s.pcodes ++ [op] ∧ op.type = e.opc ∧
          s.store <+: s'.store) ∧
    (∀ (store0 : List PcodeOperand) (ems : List Emission) (s : PcodeSlg),
      PcodeSlg.dumpAll conv (PcodeSlg.mk [] store0) ems = Outcome.returned s →
        s.pcodes.length = ems.length ∧
        ∀ (i : Nat) (hi : i < ems.length), ∃ (si si' : PcodeSlg) (op : Pcodeop),
          PcodeSlg.dumpAll conv (PcodeSlg.mk [] store0) (ems.take i) = Outcome.returned si ∧
          si.dump conv (ems[i]).addr (ems[i]).opc (ems[i]).outvar (ems[i]).vars (ems[i]).isize
            = Outcome.returned si' ∧
          si'.pcodes = si.pcodes ++ [op] ∧ op.type = (ems[i]).opc ∧
          s.pcodes[i]? = some op ∧
          si'.store <+: s.store) := by
  refine ⟨?_, ?_⟩
  · intro s s' e h
    exact dump_returned_append conv s s' _ _ _ _ _ h
  · intro store0 ems s h
    obtain ⟨hlen, _, _, hall⟩ := dumpAll_returned conv ems _ s h
    refine ⟨by simpa using hlen, ?_⟩
    intro i hi
    obtain ⟨si, si', op, h1, h2, h3, h4, h5, h6⟩ := hall i hi
    exact ⟨si, si', op, h1, h2, h3, h4, by simpa using h5, h6⟩

/-- C10 at a concrete run: a copy followed by a store, on an empty builder. -/
theorem C10_append_in_callback_order_witness :
    PcodeSlg.dumpAll (varnodeOperand (fun _ _ => "r0")) (PcodeSlg.mk [] [])
      [Emission.mk (Address.mk AddrSpace.other 0x1000) (OpCode.mk 1)
          (some (VarnodeData.mk AddrSpace.unique 0x100 4))
          [VarnodeData.mk AddrSpace.register 0 4] 1,
        Emission.mk (Address.mk AddrSpace.other 0x1000) CPUI_STORE none
          [VarnodeData.mk AddrSpace.constant 1 8, VarnodeData.mk AddrSpace.register 8 4,
            VarnodeData.mk AddrSpace.unique 0x100 4] 3]
      = Outcome.returned (PcodeSlg.mk
          [Pcodeop.mk (OpCode.mk 1) (some 1) (some 0) none,
            Pcodeop.mk CPUI_STORE (some 2) (some 4) (some 3)]
          [PcodeOperand.REGISTER "r0" 4, PcodeOperand.UNIQUE 0x100 4,
            PcodeOperand.UNIQUE 0x100 4, PcodeOperand.REGISTER "r0" 4,
            PcodeOperand.CONST 1 0]) ∧
    [Pcodeop.mk (OpCode.mk 1) (some 1) (some 0) none,
      Pcodeop.mk CPUI_STORE (some 2) (some 4) (some 3)].length = 2 :=
  ⟨by rfl,
    ((C10_append_in_callback_order (varnodeOperand (fun _ _ => "r0"))).2 []
      [Emission.mk (Address.mk AddrSpace.other 0x1000) (OpCode.mk 1)
          (some (VarnodeData.mk AddrSpace.unique 0x100 4))
          [VarnodeData.mk AddrSpace.register 0 4] 1,
        Emission.mk (Address.mk AddrSpace.other 0x1000) CPUI_STORE none
          [VarnodeData.mk AddrSpace.constant 1 8, VarnodeData.mk AddrSpace.register 8 4,
            VarnodeData.mk AddrSpace.unique 0x100 4] 3]
      (PcodeSlg.mk
          [Pcodeop.mk (OpCode.mk 1) (some 1) (some 0) none,
            Pcodeop.mk CPUI_STORE (some 2) (some 4) (some 3)]
          [PcodeOperand.REGISTER "r0" 4, PcodeOperand.UNIQUE 0x100 4,
            PcodeOperand.UNIQUE 0x100 4, PcodeOperand.REGISTER "r0" 4,
            PcodeOperand.CONST 1 0]) (by rfl)).1⟩

/-! ## Ownership of constructed operands -/

/-- What fini passes to delete: the populated slots, output first, then input0,
then input1, appended to the log. -/
theorem fini_eq (op : Pcodeop) (deleted : List Ptr) :
    op.fini deleted =
      deleted ++ (op.output.toList ++ op.input0.toList ++ op.input1.toList) := by
  cases op with
  | mk type output input0 input1 =>
    cases output <;> cases input0 <;> cases input1 <;> simp [Pcodeop.fini]

/-- Outside the case of 3 inputs together with an explicit output, every operand
a returning dump constructs is held by a slot of the appended micro-operation. -/
theorem dump_constructed_in_slots (conv : VarnodeData → PcodeOperand) (s s' : PcodeSlg)
    (addr : Address) (opc : OpCode) (outvar : Option VarnodeData)
    (vars : List VarnodeData) (isize : Int)
    (h : s.dump conv addr opc outvar vars isize = Outcome.returned s')
    (hno : ¬ (outvar ≠ none ∧ isize = 3 ∧ opc ≠ CPUI_CALLOTHER)) :
    ∃ op : Pcodeop, s'.pcodes = s.pcodes ++ [op] ∧
      ∀ p : Nat, s.store.length ≤ p → p < s'.store.length → p ∈ op.fini [] := by
  unfold PcodeSlg.dump at h
  simp only [] at h
  by_cases hopc : opc = CPUI_CALLOTHER
  · simp only [hopc, if_true] at h
    split_ifs at h <;>
      simp only [PcodeSlg.dump_case3, PcodeSlg.dump_case2, PcodeSlg.dump_case1,
        PcodeSlg.dump_finish, PcodeSlg.parse_vardata] at h <;>
      (repeat' split at h) <;>
      simp at h <;> subst h <;>
      simp [fini_eq, Pcodeop.ctor] <;>
      (intro p h1 h2; unfold Ptr; omega)
  · simp only [hopc, if_false] at h
    split_ifs at h with h3 <;>
      simp only [PcodeSlg.dump_case3, PcodeSlg.dump_case2, PcodeSlg.dump_case1,
        PcodeSlg.dump_finish, PcodeSlg.parse_vardata] at h <;>
      (repeat' split at h) <;>
      simp at h <;> subst h <;>
      simp_all [fini_eq, Pcodeop.ctor] <;>
      (intro p h1 h2; unfold Ptr; omega)

/-- C11 fails at a 3-input emission with an explicit output (operation code 65,
not CPUI_CALLOTHER, on an empty builder): dump returns having constructed four
operands, the first of them, at address 0, parsed from vars[2]; the appended
micro-operation holds the addresses 3, 2 and 1 in its slots and address 0 in
none, and releasing the sequence deletes 3, 2 and 1 only. -/
theorem C11_operand_leaked_three_inputs_explicit_output :
    OpCode.mk 65 ≠ CPUI_CALLOTHER ∧
    ∃ (s' : PcodeSlg) (op : Pcodeop),
      (PcodeSlg.mk [] []).dump (varnodeOperand (fun _ _ => "r0"))
        (Address.mk AddrSpace.other 0x1000) (OpCode.mk 65)
        (some (VarnodeData.mk AddrSpace.unique 0x100 4))
        [VarnodeData.mk AddrSpace.register 0 4, VarnodeData.mk AddrSpace.register 8 4,
          VarnodeData.mk AddrSpace.constant 4 4] 3 = Outcome.returned s' ∧
      s'.pcodes = [op] ∧
      s'.store.length = 4 ∧
      s'.deref (some 0) =
        some (varnodeOperand (fun _ _ => "r0") (VarnodeData.mk AddrSpace.constant 4 4)) ∧
      op.output = some 3 ∧ op.input0 = some 2 ∧ op.input1 = some 1 ∧
      0 ∉ op.fini [] ∧
      PcodeSlg.dtor_loop 2 (Teardown.mk s'.pcodes [] []) = some (Teardown.mk [] [op] [3, 2, 1]) :=
  ⟨by decide,
    PcodeSlg.mk [Pcodeop.mk (OpCode.mk 65) (some 3) (some 2) (some 1)]
      [PcodeOperand.CONST 4 0, PcodeOperand.REGISTER "r0" 4, PcodeOperand.REGISTER "r0" 4,
        PcodeOperand.UNIQUE 0x100 4],
    Pcodeop.mk (OpCode.mk 65) (some 3) (some 2) (some 1),
    by rfl, by rfl, by rfl, by rfl, by rfl, by rfl, by rfl, by decide, by rfl⟩

/-! ## The destructor -/

/-- The destructor loop on a sequence with enough fuel: it empties pcodes,
calls fini on the entries from last to first, and appends what each fini
deletes to the log. -/
theorem dtor_loop_eq (pcodes : List Pcodeop) :
    ∀ (fuel : Nat) (finis : List Pcodeop) (deleted : List Ptr), pcodes.length < fuel →
      PcodeSlg.dtor_loop fuel (Teardown.mk pcodes finis deleted) =
        some (Teardown.mk [] (finis ++ pcodes.reverse)
          (deleted ++ pcodes.reverse.flatMap (fun op => op.fini []))) := by
  induction pcodes using List.reverseRecOn with
  | nil =>
    intro fuel finis deleted h
    cases fuel with
    | zero => simp at h
    | succ n => simp [PcodeSlg.dtor_loop]
  | append_singleton l a ih =>
    intro fuel finis deleted h
    cases fuel with
    | zero => simp at h
    | succ n =>
      have hl : l.length < n := by simpa using h
      simp only [PcodeSlg.dtor_loop, List.getLast?_concat, List.dropLast_concat]
      rw [ih n _ _ hl]
      simp [fini_eq, List.flatMap_cons]

/-- C12. For every pcodes sequence, the destructor loop ends once it has enough
fuel (any bound above the length of the sequence), leaving pcodes empty; fini
was called once on each micro-operation, from last to first, and what was
deleted is, per micro-operation in that order, its populated slots: output,
input0, input1, each once, and no empty slot. -/
theorem C12_destructor_releases_all (pcodes : List Pcodeop) (fuel : Nat)
    (h : pcodes.length < fuel) :
    PcodeSlg.dtor_loop fuel (Teardown.mk pcodes [] []) =
      some (Teardown.mk [] pcodes.reverse (pcodes.reverse.flatMap (fun op => op.fini []))) ∧
    ∀ op : Pcodeop,
      op.fini [] = op.output.toList ++ op.input0.toList ++ op.input1.toList ∧
      (op.fini []).length =
        (if op.output = none then 0 else 1) + (if op.input0 = none then 0 else 1) +
          (if op.input1 = none then 0 else 1) := by
  refine ⟨?_, ?_⟩
  · simpa using dtor_loop_eq pcodes fuel [] [] h
  · intro op
    cases op with
    | mk type output input0 input1 =>
      cases output <;> cases input0 <;> cases input1 <;> simp [Pcodeop.fini]

/-- C12 at a concrete sequence: a copy and a store. -/
theorem C12_destructor_releases_all_witness :
    PcodeSlg.dtor_loop 3 (Teardown.mk
        [Pcodeop.mk (OpCode.mk 1) (some 1) (some 0) none,
          Pcodeop.mk CPUI_STORE (some 2) (some 4) (some 3)] [] []) =
      some (Teardown.mk []
        [Pcodeop.mk CPUI_STORE (some 2) (some 4) (some 3),
          Pcodeop.mk (OpCode.mk 1) (some 1) (some 0) none]
        [2, 4, 3, 1, 0]) :=
  (C12_destructor_releases_all
    [Pcodeop.mk (OpCode.mk 1) (some 1) (some 0) none,
      Pcodeop.mk CPUI_STORE (some 2) (some 4) (some 3)] 3 (by decide)).1

/-- The slots of the micro-operation a returning dump appends hold pairwise
distinct addresses, all allocated by that call. -/
theorem dump_slots_fresh (conv : VarnodeData → PcodeOperand) (s s' : PcodeSlg)
    (addr : Address) (opc : OpCode) (outvar : Option VarnodeData)
    (vars : List VarnodeData) (isize : Int)
    (h : s.dump conv addr opc outvar vars isize = Outcome.returned s') :
    ∃ op : Pcodeop, s'.pcodes = s.pcodes ++ [op] ∧ (op.fini []).Nodup ∧
      s.store.length ≤ s'.store.length ∧
      ∀ p : Nat, p ∈ op.fini [] → s.store.length ≤ p ∧ p < s'.store.length := by
  unfold PcodeSlg.dump at h
  simp only [] at h
  generalize (if opc = CPUI_CALLOTHER then (if isize > 2 then 2 else isize) else isize) = n at h
  split_ifs at h <;>
    simp only [PcodeSlg.dump_case3, PcodeSlg.dump_case2, PcodeSlg.dump_case1,
      PcodeSlg.dump_finish, PcodeSlg.parse_vardata] at h <;>
    (repeat' split at h) <;>
    simp at h <;> subst h <;>
    simp [fini_eq, Pcodeop.ctor] <;>
    (unfold Ptr; omega)

/-- The addresses held by the slots of a sequence, in sequence order. -/
theorem slots_append (l : List Pcodeop) (op : Pcodeop) :
    (l ++ [op]).flatMap (fun o => o.fini []) = l.flatMap (fun o => o.fini []) ++ op.fini [] := by
  simp [List.flatMap_append]

/-- In a sequence built by returning dumps, no address sits in two slots, and
every slot holds an allocated address: the destructor deletes each at most once. -/
theorem dumpAll_slots_nodup (conv : VarnodeData → PcodeOperand) (ems : List Emission) :
    ∀ s0 s : PcodeSlg, PcodeSlg.dumpAll conv s0 ems = Outcome.returned s →
      (s0.pcodes.flatMap (fun o => o.fini [])).Nodup →
      (∀ p : Nat, p ∈ s0.pcodes.flatMap (fun o => o.fini []) → p < s0.store.length) →
      (s.pcodes.flatMap (fun o => o.fini [])).Nodup ∧
      (∀ p : Nat, p ∈ s.pcodes.flatMap (fun o => o.fini []) → p < s.store.length) := by
  induction ems with
  | nil =>
    intro s0 s h hn hb
    simp only [PcodeSlg.dumpAll, Outcome.returned.injEq] at h
    subst h
    exact ⟨hn, hb⟩
  | cons e es ih =>
    intro s0 s h hn hb
    simp only [PcodeSlg.dumpAll] at h
    cases hd : s0.dump conv e.addr e.opc e.outvar e.vars e.isize with
    | thrown err t => rw [hd] at h; simp at h
    | undefined => rw [hd] at h; simp at h
    | returned s1 =>
      rw [hd] at h
      simp only [] at h
      obtain ⟨op, hp, hnd, hle, hfresh⟩ := dump_slots_fresh conv s0 s1 _ _ _ _ _ hd
      apply ih s1 s h
      · rw [hp, slots_append, List.nodup_append]
        refine ⟨hn, hnd, ?_⟩
        intro p hp1 hp2
        have h1 := hb p hp1
        have h2 := (hfresh p hp2).1
        omega
      · intro p hmem
        rw [hp, slots_append, List.mem_append] at hmem
        rcases hmem with hmem | hmem
        · have := hb p hmem
          omega
        · exact (hfresh p hmem).2

/-! ## Address adjustment -/

/-- C13. adjustVma rejects every adjustment request, 0 included: it throws
LowlevelError and never returns normally. -/
theorem C13_adjustVma_rejects (adjust : Int) :
    AsmLoadImage.adjustVma adjust =
      Except.error (LowlevelError.mk "Cannot adjust rizin virtual memory") ∧
    ∀ u : Unit, AsmLoadImage.adjustVma adjust ≠ Except.ok u := by
  simp [AsmLoadImage.adjustVma]

/-! ## Input slots by arity -/

/-- C14. For isize 0, 1 and 2 and any operation code, CPUI_CALLOTHER included,
dump returns and fills the input slots by arity: none for isize 0; input0 from
vars[0] alone for isize 1; input0 from vars[0] and input1 from vars[1] for
isize 2. The output slot is empty exactly when no explicit output varnode is
supplied, and otherwise holds the operand parsed from it. -/
theorem C14_inputs_by_arity (conv : VarnodeData → PcodeOperand) (s : PcodeSlg)
    (addr : Address) (opc : OpCode) (outvar : Option VarnodeData) :
    (∀ vars : List VarnodeData, ∃ (s' : PcodeSlg) (op : Pcodeop),
      s.dump conv addr opc outvar vars 0 = Outcome.returned s' ∧
      s'.pcodes = s.pcodes ++ [op] ∧ op.type = opc ∧
      op.input0 = none ∧ op.input1 = none ∧
      (op.output = none ↔ outvar = none) ∧
      s'.deref op.output = outvar.map conv) ∧
    (∀ (v0 : VarnodeData) (rest : List VarnodeData), ∃ (s' : PcodeSlg) (op : Pcodeop),
      s.dump conv addr opc outvar (v0 :: rest) 1 = Outcome.returned s' ∧
      s'.pcodes = s.pcodes ++ [op] ∧ op.type = opc ∧
      s'.deref op.input0 = some (conv v0) ∧ op.input1 = none ∧
      (op.output = none ↔ outvar = none) ∧
      s'.deref op.output = outvar.map conv) ∧
    (∀ (v0 v1 : VarnodeData) (rest : List VarnodeData), ∃ (s' : PcodeSlg) (op : Pcodeop),
      s.dump conv addr opc outvar (v0 :: v1 :: rest) 2 = Outcome.returned s' ∧
      s'.pcodes = s.pcodes ++ [op] ∧ op.type = opc ∧
      s'.deref op.input0 = some (conv v0) ∧ s'.deref op.input1 = some (conv v1) ∧
      (op.output = none ↔ outvar = none) ∧
      s'.deref op.output = outvar.map conv) := by
  refine ⟨?_, ?_, ?_⟩
  · intro vars
    cases outvar <;>
      simp [PcodeSlg.dump, PcodeSlg.dump_finish, PcodeSlg.parse_vardata, PcodeSlg.deref,
        Pcodeop.ctor]
  · intro v0 rest
    cases outvar <;>
      simp [PcodeSlg.dump, PcodeSlg.dump_case1, PcodeSlg.dump_finish,
        PcodeSlg.parse_vardata, PcodeSlg.deref, Pcodeop.ctor]
    simp [List.getElem_append_right]
  · intro v0 v1 rest
    cases outvar <;>
      simp [PcodeSlg.dump, PcodeSlg.dump_case2, PcodeSlg.dump_case1, PcodeSlg.dump_finish,
        PcodeSlg.parse_vardata, PcodeSlg.deref, Pcodeop.ctor] <;>
      simp [List.getElem_append_right]

/-! ## Copies and kind predicates -/

/-- For a memory, constant or temporary operand the copy has the tag of its
source, so the four kind predicates answer alike, the same size, and the same
active payload (offset or number). -/
theorem copy_faithful_of_not_reg (x : PcodeOperand) (h : x.is_reg = false) :
    ∃ y : PcodeOperand, PcodeOperand.copy x = Construction.constructed y ∧
      y.type = x.type ∧
      y.is_reg = x.is_reg ∧ y.is_ram = x.is_ram ∧
      y.is_const = x.is_const ∧ y.is_unique = x.is_unique ∧
      y.size = x.size ∧
      y.name? = x.name? ∧ y.offset? = x.offset? ∧ y.number? = x.number? := by
  cases x <;> simp_all [PcodeOperand.copy, PcodeOperand.is_reg, PcodeOperand.type]

/-- C15 fails for register operands: copy-constructing the register operand of
name "sp" and width 8 ends in undefined behaviour, so the constructor yields no
operand with tag REGISTER, size 8 and name "sp". -/
theorem C15_copy_register_payload_not_copied :
    (PcodeOperand.REGISTER "sp" 8).is_reg = true ∧
    PcodeOperand.copy (PcodeOperand.REGISTER "sp" 8) = Construction.undefined ∧
    ¬ ∃ y : PcodeOperand,
      PcodeOperand.copy (PcodeOperand.REGISTER "sp" 8) = Construction.constructed y ∧
      y.type = OperandType.REGISTER ∧ y.size = 8 ∧ y.name? = some "sp" := by
  simp [PcodeOperand.copy, PcodeOperand.is_reg, PcodeOperand.type]

/-- C18. The four kind predicates partition the operands: exactly one of
is_reg, is_ram, is_const, is_unique is true of every operand. -/
theorem C18_kind_predicates_partition (x : PcodeOperand) :
    List.count true [x.is_reg, x.is_ram, x.is_const, x.is_unique] = 1 ∧
    (x.is_reg = true ∨ x.is_ram = true ∨ x.is_const = true ∨ x.is_unique = true) := by
  cases x <;>
    simp [PcodeOperand.is_reg, PcodeOperand.is_ram, PcodeOperand.is_const,
      PcodeOperand.is_unique, PcodeOperand.type]

/-- The UniquePcodeOperand constructed from a memory, constant or temporary
operand x compares equal to x in both directions, answers the four kind
predicates as x does, and has a null def. -/
theorem ofOperand_of_not_reg (x : PcodeOperand) (h : x.is_reg = false) :
    ∃ u : UniquePcodeOperand, UniquePcodeOperand.ofOperand x = Construction.constructed u ∧
      u.base.operatorEq x = true ∧ x.operatorEq u.base = true ∧
      u.base.is_reg = x.is_reg ∧ u.base.is_ram = x.is_ram ∧
      u.base.is_const = x.is_const ∧ u.base.is_unique = x.is_unique ∧
      u.defOp = none := by
  cases x <;>
    simp_all [UniquePcodeOperand.ofOperand, PcodeOperand.copy, PcodeOperand.operatorEq,
      PcodeOperand.is_reg, PcodeOperand.type]

/-- C19 fails for register operands: constructing a UniquePcodeOperand from the
register operand of name "r0" and width 4 copy-constructs its base through
line 92 and ends in undefined behaviour; no object is constructed. -/
theorem C19_unique_operand_register_undefined :
    UniquePcodeOperand.ofOperand (PcodeOperand.ofName "r0" 4) = Construction.undefined ∧
    ¬ ∃ u : UniquePcodeOperand,
      UniquePcodeOperand.ofOperand (PcodeOperand.ofName "r0" 4) = Construction.constructed u := by
  simp [UniquePcodeOperand.ofOperand, PcodeOperand.copy, PcodeOperand.ofName]

/-! ## Reads of the input array -/

/-- The switch of dump entered with count n reads only the first n entries of
vars: when vars holds at least n entries the outcome is defined, and it is the
same on any truncation of vars that keeps the first n entries. -/
theorem dump_switch_reads (conv : VarnodeData → PcodeOperand) (s : PcodeSlg) (opc : OpCode)
    (outvar : Option VarnodeData) (vars : List VarnodeData) (n : Int) (k : Nat)
    (hn : n ≤ (vars.length : Int)) (hk : n ≤ (k : Int)) :
    (if n = 3 then PcodeSlg.dump_case3 conv opc outvar vars s
      else if n = 2 then PcodeSlg.dump_case2 conv opc outvar vars none s
      else if n = 1 then PcodeSlg.dump_case1 conv opc outvar vars none none s
      else if n = 0 then PcodeSlg.dump_finish conv opc outvar none none none s
      else Outcome.thrown (LowlevelError.mk "Unexpexted isize in PcodeSlg::dump()") s)
        ≠ Outcome.undefined ∧
    (if n = 3 then PcodeSlg.dump_case3 conv opc outvar (vars.take k) s
      else if n = 2 then PcodeSlg.dump_case2 conv opc outvar (vars.take k) none s
      else if n = 1 then PcodeSlg.dump_case1 conv opc outvar (vars.take k) none none s
      else if n = 0 then PcodeSlg.dump_finish conv opc outvar none none none s
      else Outcome.thrown (LowlevelError.mk "Unexpexted isize in PcodeSlg::dump()") s) =
    (if n = 3 then PcodeSlg.dump_case3 conv opc outvar vars s
      else if n = 2 then PcodeSlg.dump_case2 conv opc outvar vars none s
      else if n = 1 then PcodeSlg.dump_case1 conv opc outvar vars none none s
      else if n = 0 then PcodeSlg.dump_finish conv opc outvar none none none s
      else Outcome.thrown (LowlevelError.mk "Unexpexted isize in PcodeSlg::dump()") s) := by
  by_cases h3 : n = 3
  · subst h3
    have hk3 : 3 ≤ k := by omega
    rcases vars with _ | ⟨v0, _ | ⟨v1, _ | ⟨v2, rest⟩⟩⟩
    · simp at hn
    · simp at hn
    · simp at hn
    · obtain ⟨j, rfl⟩ : ∃ j, k = j + 3 := ⟨k - 3, by omega⟩
      cases outvar <;>
        simp [PcodeSlg.dump_case3, PcodeSlg.dump_case2, PcodeSlg.dump_case1,
          PcodeSlg.dump_finish, PcodeSlg.parse_vardata]
  by_cases h2 : n = 2
  · subst h2
    rcases vars with _ | ⟨v0, _ | ⟨v1, rest⟩⟩
    · simp at hn
    · simp at hn
    · obtain ⟨j, rfl⟩ : ∃ j, k = j + 2 := ⟨k - 2, by omega⟩
      cases outvar <;>
        simp [PcodeSlg.dump_case2, PcodeSlg.dump_case1,
          PcodeSlg.dump_finish, PcodeSlg.parse_vardata]
  by_cases h1 : n = 1
  · subst h1
    rcases vars with _ | ⟨v0, rest⟩
    · simp at hn
    · obtain ⟨j, rfl⟩ : ∃ j, k = j + 1 := ⟨k - 1, by omega⟩
      cases outvar <;>
        simp [PcodeSlg.dump_case1, PcodeSlg.dump_finish, PcodeSlg.parse_vardata]
  by_cases h0 : n = 0
  · subst h0
    cases outvar <;> simp [PcodeSlg.dump_finish, PcodeSlg.parse_vardata]
  simp [h3, h2, h1, h0]

/-- C17. When vars holds at least n entries, n being min(isize, 2) for
CPUI_CALLOTHER and isize otherwise, dump reads no entry of vars outside the
first n: its outcome is defined (no read past the end of vars) and is the same
when vars is cut down to its first n entries; with isize 0 the outcome is the
same on the empty array, so vars is not read at all. -/
theorem C17_vars_reads_in_bounds (conv : VarnodeData → PcodeOperand) (s : PcodeSlg)
    (addr : Address) (opc : OpCode) (outvar : Option VarnodeData)
    (vars : List VarnodeData) (isize : Int)
    (h : (if opc = CPUI_CALLOTHER then min isize 2 else isize) ≤ (vars.length : Int)) :
    s.dump conv addr opc outvar vars isize ≠ Outcome.undefined ∧
    s.dump conv addr opc outvar
      (vars.take (if opc = CPUI_CALLOTHER then min isize 2 else isize).toNat) isize =
      s.dump conv addr opc outvar vars isize ∧
    (isize = 0 →
      s.dump conv addr opc outvar [] isize = s.dump conv addr opc outvar vars isize) := by
  have heff : (if opc = CPUI_CALLOTHER then (if isize > 2 then 2 else isize) else isize) =
      (if opc = CPUI_CALLOTHER then min isize 2 else isize) := by
    split_ifs <;> omega
  have key := dump_switch_reads conv s opc outvar vars
    (if opc = CPUI_CALLOTHER then min isize 2 else isize)
    (if opc = CPUI_CALLOTHER then min isize 2 else isize).toNat h (Int.self_le_toNat _)
  unfold PcodeSlg.dump
  simp only [heff]
  refine ⟨key.1, key.2, ?_⟩
  intro h0
  subst h0
  have hz : (if opc = CPUI_CALLOTHER then min (0 : Int) 2 else 0) = 0 := by
    split_ifs <;> simp
  simp [hz]

/-- C17 at a concrete emission: a call-other operation reporting 5 inputs over
an array of two entries. -/
theorem C17_vars_reads_in_bounds_witness :
    (PcodeSlg.mk [] []).dump (varnodeOperand (fun _ _ => "r0"))
        (Address.mk AddrSpace.other 0x1000) CPUI_CALLOTHER none
        [VarnodeData.mk AddrSpace.constant 1 4, VarnodeData.mk AddrSpace.register 8 4] 5
      ≠ Outcome.undefined :=
  (C17_vars_reads_in_bounds (varnodeOperand (fun _ _ => "r0")) (PcodeSlg.mk [] [])
    (Address.mk AddrSpace.other 0x1000) CPUI_CALLOTHER none
    [VarnodeData.mk AddrSpace.constant 1 4, VarnodeData.mk AddrSpace.register 8 4] 5
    (by decide)).1

/-! ## Slot population of built sequences -/

/-- The micro-operation a returning dump appends has input0 populated whenever
input1 is: case 2 of the switch falls through to case 1. -/
theorem dump_input_order (conv : VarnodeData → PcodeOperand) (s s' : PcodeSlg)
    (addr : Address) (opc : OpCode) (outvar : Option VarnodeData)
    (vars : List VarnodeData) (isize : Int)
    (h : s.dump conv addr opc outvar vars isize = Outcome.returned s') :
    ∃ op : Pcodeop, s'.pcodes = s.pcodes ++ [op] ∧ (op.input1 ≠ none → op.input0 ≠ none) := by
  unfold PcodeSlg.dump at h
  simp only [] at h
  generalize (if opc = CPUI_CALLOTHER then (if isize > 2 then 2 else isize) else isize) = n at h
  split_ifs at h <;>
    simp only [PcodeSlg.dump_case3, PcodeSlg.dump_case2, PcodeSlg.dump_case1,
      PcodeSlg.dump_finish, PcodeSlg.parse_vardata] at h <;>
    (repeat' split at h) <;>
    simp at h <;> subst h <;>
    simp [Pcodeop.ctor]

/-- Returning dumps keep the slot-population invariant of a sequence. -/
theorem dumpAll_input_order (conv : VarnodeData → PcodeOperand) (ems : List Emission) :
    ∀ s0 s : PcodeSlg, PcodeSlg.dumpAll conv s0 ems = Outcome.returned s →
      (∀ op ∈ s0.pcodes, op.input1 ≠ none → op.input0 ≠ none) →
      ∀ op ∈ s.pcodes, op.input1 ≠ none → op.input0 ≠ none := by
  induction ems with
  | nil =>
    intro s0 s h hinv
    simp only [PcodeSlg.dumpAll, Outcome.returned.injEq] at h
    subst h
    exact hinv
  | cons e es ih =>
    intro s0 s h hinv
    simp only [PcodeSlg.dumpAll] at h
    cases hd : s0.dump conv e.addr e.opc e.outvar e.vars e.isize with
    | thrown err t => rw [hd] at h; simp at h
    | undefined => rw [hd] at h; simp at h
    | returned s1 =>
      rw [hd] at h
      simp only [] at h
      obtain ⟨op0, hp, hord⟩ := dump_input_order conv s0 s1 _ _ _ _ _ hd
      apply ih s1 s h
      intro op hmem
      rw [hp, List.mem_append] at hmem
      rcases hmem with hmem | hmem
      · exact hinv op hmem
      · have : op = op0 := by simpa using hmem
        subst this
        exact hord

/-- C16. In every pcodes sequence reached from a builder with empty pcodes by
returning calls of dump, each micro-operation whose input1 slot is populated
has its input0 slot populated too. -/
theorem C16_input1_implies_input0 (conv : VarnodeData → PcodeOperand)
    (store0 : List PcodeOperand) (ems : List Emission) (s : PcodeSlg)
    (h : PcodeSlg.dumpAll conv (PcodeSlg.mk [] store0) ems = Outcome.returned s) :
    ∀ op ∈ s.pcodes, op.input1 ≠ none → op.input0 ≠ none :=
  dumpAll_input_order conv ems (PcodeSlg.mk [] store0) s h (by simp)

/-- C16 at a concrete run: a copy followed by a store, on an empty builder. -/
theorem C16_input1_implies_input0_witness :
    (Pcodeop.mk CPUI_STORE (some 2) (some 4) (some 3)).input1 ≠ none ∧
    (Pcodeop.mk CPUI_STORE (some 2) (some 4) (some 3)).input0 ≠ none :=
  ⟨by decide, C16_input1_implies_input0 (varnodeOperand (fun _ _ => "r0")) []
    [Emission.mk (Address.mk AddrSpace.other 0x1000) (OpCode.mk 1)
        (some (VarnodeData.mk AddrSpace.unique 0x100 4))
        [VarnodeData.mk AddrSpace.register 0 4] 1,
      Emission.mk (Address.mk AddrSpace.other 0x1000) CPUI_STORE none
        [VarnodeData.mk AddrSpace.constant 1 8, VarnodeData.mk AddrSpace.register 8 4,
          VarnodeData.mk AddrSpace.unique 0x100 4] 3]
    (PcodeSlg.mk
      [Pcodeop.mk (OpCode.mk 1) (some 1) (some 0) none,
        Pcodeop.mk CPUI_STORE (some 2) (some 4) (some 3)]
      [PcodeOperand.REGISTER "r0" 4, PcodeOperand.UNIQUE 0x100 4,
        PcodeOperand.UNIQUE 0x100 4, PcodeOperand.REGISTER "r0" 4,
        PcodeOperand.CONST 1 0]) (by rfl)
    (Pcodeop.mk CPUI_STORE (some 2) (some 4) (some 3)) (by simp) (by decide)⟩

end SleighAsm
